import Mathlib

/-!
# Wrye Bash, `experimental/bait/native/bait.c`

The file holds one function,

    int32_t get_thread_id(void)
    {
        return (int32_t)syscall(__NR_gettid);
    }

The embedding below keeps the three things the function is made of: the
external `syscall` entry point of the C library (an oracle, passed as a
parameter), the request number `__NR_gettid` (a constant of the system
headers, passed as a parameter) and the narrowing conversion `(int32_t)`.
Machine integers are values of `Int`: `syscall` returns a `long` (64 bits on
the LP64 targets of the `gettid` interface), and the conversion is the
reduction modulo `2^32` that GCC and Clang define for an out-of-range signed
narrowing.
-/

namespace Bait

/-! ## Data model -/

/-- A user-level execution context: the thread that invokes the function. -/
abbrev Thread := Nat

/-- Smallest value of `int32_t`. -/
def INT32_MIN : Int := -2147483648

/-- Largest value of `int32_t`. -/
def INT32_MAX : Int := 2147483647

/-- The value is representable as `int32_t`. -/
def isInt32 (x : Int) : Prop := INT32_MIN ≤ x ∧ x ≤ INT32_MAX

instance (x : Int) : Decidable (isInt32 x) := by
  unfold isInt32; infer_instance

/-- The conversion `(int32_t)x` of a wider signed integer: keep the low 32
bits and read them as a two's-complement number. -/
def toInt32 (x : Int) : Int :=
  let low := x % 4294967296
  if low < 2147483648 then low else low - 4294967296

/-- The explicit state an invocation runs against: the memory of the program
and the thread table of the operating system (live threads with the kernel
identifier of each). -/
structure State where
  memory : List Int
  threads : List (Thread × Int)
deriving DecidableEq, Repr

/-- Kernel identifier the thread table holds for a thread, if it is live. -/
def tidOf (s : State) (t : Thread) : Option Int := s.threads.lookup t

/-- One request handed to the kernel: the request number and the arguments
that follow it. -/
structure Request where
  number : Int
  args : List Int
deriving DecidableEq, Repr

/-- The C library's variadic `long syscall(long number, ...)`, external to the
repository: given the request number, the further arguments, the calling
thread and the state, it yields the `long` it returns and the state it
leaves. -/
abbrev Syscall (σ : Type) := Int → List Int → Thread → σ → Int × σ

/-- Instrumentation of a `syscall` oracle: the same answers and the same
state change, with every request appended to a log carried next to the
state. -/
def logged {σ : Type} (syscall : Syscall σ) : Syscall (σ × List Request) :=
  fun number args caller w =>
    let r := syscall number args caller w.1
    (r.1, (r.2, w.2 ++ [⟨number, args⟩]))

/-! ## The function -/

/-- Embedding of `get_thread_id`: one `syscall` with the request number
`__NR_gettid` and no further argument, whose `long` result is converted to
`int32_t` and returned; the state is whatever `syscall` left. -/
def get_thread_id {σ : Type} (syscall : Syscall σ) (__NR_gettid : Int)
    (caller : Thread) (s : σ) : Int × σ :=
  let r := syscall __NR_gettid [] caller s
  (toInt32 r.1, r.2)

/-- Invocations of `get_thread_id` by the threads of a schedule, in the
order of the schedule: each invocation runs from the state its predecessor
left. The function meets the state in its one system call only, so an
interleaving of invocations is the order in which their system calls are
served. The result pairs every caller with the value returned to it. -/
def runAll {σ : Type} (syscall : Syscall σ) (__NR_gettid : Int) :
    List Thread → σ → List (Thread × Int) × σ
  | [], s => ([], s)
  | t :: ts, s =>
    let r := get_thread_id syscall __NR_gettid t s
    let rest := runAll syscall __NR_gettid ts r.2
    ((t, r.1) :: rest.1, rest.2)

/-! ## Assumptions on the operating system -/

/-- The kernel serves `gettid` under the request number `nr`: a request made
by a live thread is answered with that thread's entry in the thread table. -/
def AnswersTid (syscall : Syscall State) (nr : Int) : Prop :=
  ∀ (t : Thread) (s : State) (r : Int),
    tidOf s t = some r → (syscall nr [] t s).1 = r

/-- Distinct live threads hold distinct kernel identifiers. -/
def DistinctTids (s : State) : Prop :=
  ∀ (t1 t2 : Thread) (r1 r2 : Int),
    t1 ≠ t2 → tidOf s t1 = some r1 → tidOf s t2 = some r2 → r1 ≠ r2

/-- Every kernel identifier in the thread table is representable as
`int32_t`. -/
def TidsFitInt32 (s : State) : Prop :=
  ∀ (t : Thread) (r : Int), tidOf s t = some r → isInt32 r

/-- The conversion to `int32_t` does not make two distinct identifiers of the
thread table collide: identifiers that differ are not congruent modulo
`2^32`. -/
def ConversionKeepsDistinct (s : State) : Prop :=
  ∀ (t1 t2 : Thread) (r1 r2 : Int),
    tidOf s t1 = some r1 → tidOf s t2 = some r2 → r1 ≠ r2 →
    (r1 - r2) % 4294967296 ≠ 0

/-- A `gettid` request leaves the thread table as it was. -/
def KeepsThreads (syscall : Syscall State) (nr : Int) : Prop :=
  ∀ (t : Thread) (s : State), (syscall nr [] t s).2.threads = s.threads

/-! ## A sample environment

Used to evaluate the function on concrete inputs. -/

/-- A sample kernel that provides `gettid` under the request number `nr`: the
request, made without further arguments, is answered with the caller's entry
in the thread table, and any other request (or a caller without an entry)
with the failure value `-1`. The state is left as it was. -/
def sampleKernel (nr : Int) : Syscall State :=
  fun number args caller s =>
    if number = nr ∧ args = [] then ((tidOf s caller).getD (-1), s) else (-1, s)

/-- A sample kernel that lacks the facility: every request fails with `-1`,
and the error number (38, `ENOSYS`) is stored in the first memory cell. -/
def failingKernel : Syscall State :=
  fun _ _ _ s => (-1, { s with memory := 38 :: s.memory.tail })

/-- A sample state: three live threads with small kernel identifiers. -/
def sampleState : State :=
  { memory := [0, 7], threads := [(1, 4100), (2, 4101), (3, 4102)] }

/-- A sample state in which two live threads hold kernel identifiers that
differ by exactly `2^32`. -/
def wideState : State :=
  { memory := [], threads := [(1, 5), (2, 4294967301)] }

/-! ## Facts about the conversion -/

theorem toInt32_isInt32 (x : Int) : isInt32 (toInt32 x) := by
  unfold isInt32 INT32_MIN INT32_MAX toInt32
  dsimp only
  split <;> omega

theorem toInt32_of_isInt32 (x : Int) (h : isInt32 x) : toInt32 x = x := by
  unfold isInt32 INT32_MIN INT32_MAX at h
  unfold toInt32
  dsimp only
  split <;> omega

theorem toInt32_congruent (x : Int) : (toInt32 x - x) % 4294967296 = 0 := by
  unfold toInt32
  dsimp only
  split <;> omega

theorem toInt32_unique (x v : Int) (hv : isInt32 v)
    (hc : (v - x) % 4294967296 = 0) : v = toInt32 x := by
  unfold isInt32 INT32_MIN INT32_MAX at hv
  unfold toInt32
  dsimp only
  split <;> omega

theorem toInt32_add_mul (x k : Int) : toInt32 (x + k * 4294967296) = toInt32 x := by
  unfold toInt32
  simp only [Int.add_mul_emod_self]

theorem toInt32_eq_iff (x y : Int) :
    toInt32 x = toInt32 y ↔ (x - y) % 4294967296 = 0 := by
  unfold toInt32
  dsimp only
  constructor
  · intro h
    split at h <;> split at h <;> omega
  · intro h
    split <;> split <;> omega

/-! ## Facts about the sample environment -/

theorem sampleKernel_answersTid (nr : Int) : AnswersTid (sampleKernel nr) nr := by
  intro t s r h
  simp [sampleKernel, h]

theorem tidOf_sampleState (t : Thread) (r : Int) (h : tidOf sampleState t = some r) :
    (t = 1 ∧ r = 4100) ∨ (t = 2 ∧ r = 4101) ∨ (t = 3 ∧ r = 4102) := by
  unfold tidOf sampleState at h
  simp only [List.lookup] at h
  split at h
  · simp_all
  · split at h
    · simp_all
    · split at h <;> simp_all

theorem sampleState_distinctTids : DistinctTids sampleState := by
  intro t1 t2 r1 r2 hne h1 h2
  rcases tidOf_sampleState t1 r1 h1 with ⟨rfl, rfl⟩ | ⟨rfl, rfl⟩ | ⟨rfl, rfl⟩ <;>
    rcases tidOf_sampleState t2 r2 h2 with ⟨rfl, rfl⟩ | ⟨rfl, rfl⟩ | ⟨rfl, rfl⟩ <;>
    simp_all

theorem sampleState_tidsFitInt32 : TidsFitInt32 sampleState := by
  intro t r h
  unfold isInt32 INT32_MIN INT32_MAX
  rcases tidOf_sampleState t r h with ⟨_, rfl⟩ | ⟨_, rfl⟩ | ⟨_, rfl⟩ <;> decide

theorem sampleKernel_keepsThreads (nr : Int) : KeepsThreads (sampleKernel nr) nr := by
  intro t s
  simp [sampleKernel]

theorem conversionKeepsDistinct_of_tidsFitInt32 (s : State) (h : TidsFitInt32 s) :
    ConversionKeepsDistinct s := by
  intro t1 t2 r1 r2 h1 h2 hne
  have a := h t1 r1 h1
  have b := h t2 r2 h2
  unfold isInt32 INT32_MIN INT32_MAX at a b
  omega

theorem tidOf_of_threads_eq (s s2 : State) (h : s2.threads = s.threads) (t : Thread) :
    tidOf s2 t = tidOf s t := by
  unfold tidOf
  rw [h]

/-! ## The result of `get_thread_id` -/

theorem get_thread_id_of_isInt32_answer {σ : Type} (syscall : Syscall σ) (nr : Int)
    (t : Thread) (s : σ) (r : Int)
    (hans : (syscall nr [] t s).1 = r) (hr : isInt32 r) :
    (get_thread_id syscall nr t s).1 = r := by
  unfold get_thread_id
  dsimp only
  rw [hans]
  exact toInt32_of_isInt32 r hr

/-- C1: when the `gettid` request of the calling thread is answered with a
value `r` of the signed 32-bit range, `get_thread_id` returns exactly `r`. -/
theorem get_thread_id_returns_answer {σ : Type} (syscall : Syscall σ) (nr : Int)
    (t : Thread) (s : σ) (r : Int)
    (hans : (syscall nr [] t s).1 = r) (hr : isInt32 r) :
    (get_thread_id syscall nr t s).1 = r :=
  get_thread_id_of_isInt32_answer syscall nr t s r hans hr

theorem get_thread_id_returns_answer_witness :
    (sampleKernel 186 186 [] 2 sampleState).1 = 4101 ∧ isInt32 4101 ∧
      (get_thread_id (sampleKernel 186) 186 2 sampleState).1 = 4101 :=
  ⟨by decide, by decide,
    get_thread_id_returns_answer (sampleKernel 186) 186 2 sampleState 4101
      (by decide) (by decide)⟩

/-- C2: whatever value the system call returns, the value `get_thread_id`
returns lies between `INT32_MIN` and `INT32_MAX`. -/
theorem get_thread_id_fits_int32 {σ : Type} (syscall : Syscall σ) (nr : Int)
    (t : Thread) (s : σ) :
    INT32_MIN ≤ (get_thread_id syscall nr t s).1 ∧
      (get_thread_id syscall nr t s).1 ≤ INT32_MAX :=
  toInt32_isInt32 _

/-- C9: for every system-call result `r`, `get_thread_id` returns the one
value of the signed 32-bit range that is congruent to `r` modulo `2^32`, and
a system-call result that differs from `r` by a multiple of `2^32` gives the
same returned value. -/
theorem get_thread_id_truncates {σ : Type} (syscall : Syscall σ) (nr : Int)
    (t : Thread) (s : σ) :
    isInt32 (get_thread_id syscall nr t s).1 ∧
      ((get_thread_id syscall nr t s).1 - (syscall nr [] t s).1) % 2 ^ 32 = 0 ∧
      (∀ v : Int, isInt32 v → (v - (syscall nr [] t s).1) % 2 ^ 32 = 0 →
        v = (get_thread_id syscall nr t s).1) ∧
      (∀ (syscall2 : Syscall σ) (t2 : Thread) (s2 : σ) (k : Int),
        (syscall2 nr [] t2 s2).1 = (syscall nr [] t s).1 + k * 2 ^ 32 →
        (get_thread_id syscall2 nr t2 s2).1 = (get_thread_id syscall nr t s).1) := by
  refine ⟨toInt32_isInt32 _, toInt32_congruent _, ?_, ?_⟩
  · intro v hv hc
    exact toInt32_unique _ v hv hc
  · intro syscall2 t2 s2 k h
    unfold get_thread_id
    dsimp only
    rw [h]
    exact toInt32_add_mul _ k

theorem get_thread_id_truncates_witness :
    (sampleKernel 186 186 [] 2 wideState).1 = 4294967301 ∧
      (get_thread_id (sampleKernel 186) 186 2 wideState).1 = 5 ∧
      (get_thread_id (sampleKernel 186) 186 1 wideState).1 = 5 := by
  have h := get_thread_id_truncates (sampleKernel 186) 186 1 wideState
  refine ⟨by decide, ?_, by decide⟩
  exact h.2.2.2 (sampleKernel 186) 2 wideState 1 (by decide)

/-! ## Repeated invocations and distinct threads -/

/-- C3: when the kernel answers `gettid` from the thread table and the entry
of thread `T` is the same before the first and before the second of two
consecutive invocations from `T`, both invocations return the same value;
and any invocation from `T` whose system call gives the same answer returns
that value too, whatever the oracle and the state are. -/
theorem get_thread_id_repeatable (syscall : Syscall State) (nr : Int)
    (T : Thread) (s : State) (r : Int)
    (hk : AnswersTid syscall nr)
    (h1 : tidOf s T = some r)
    (h2 : tidOf (get_thread_id syscall nr T s).2 T = some r) :
    (get_thread_id syscall nr T (get_thread_id syscall nr T s).2).1
        = (get_thread_id syscall nr T s).1 ∧
      (∀ (syscall2 : Syscall State) (s2 : State),
        (syscall2 nr [] T s2).1 = (syscall nr [] T s).1 →
        (get_thread_id syscall2 nr T s2).1 = (get_thread_id syscall nr T s).1) := by
  constructor
  · have a1 := hk T s r h1
    have a2 := hk T (get_thread_id syscall nr T s).2 r h2
    unfold get_thread_id at a2 ⊢
    dsimp only at a2 ⊢
    rw [a1, a2]
  · intro syscall2 s2 h
    unfold get_thread_id
    dsimp only
    rw [h]

theorem get_thread_id_repeatable_witness :
    tidOf sampleState 1 = some 4100 ∧
      tidOf (get_thread_id (sampleKernel 186) 186 1 sampleState).2 1 = some 4100 ∧
      (get_thread_id (sampleKernel 186) 186 1
          (get_thread_id (sampleKernel 186) 186 1 sampleState).2).1
        = (get_thread_id (sampleKernel 186) 186 1 sampleState).1 :=
  ⟨by decide, by decide,
    (get_thread_id_repeatable (sampleKernel 186) 186 1 sampleState 4100
      (sampleKernel_answersTid 186) (by decide) (by decide)).1⟩

/-- C4: for two distinct threads that are live in the same state, when the
kernel answers `gettid` from the thread table, distinct live threads hold
distinct identifiers and the conversion to `int32_t` does not make distinct
identifiers of the table collide, `get_thread_id` returns different values
for the two threads. -/
theorem get_thread_id_distinct (syscall : Syscall State) (nr : Int) (s : State)
    (T1 T2 : Thread) (r1 r2 : Int)
    (hk : AnswersTid syscall nr) (hd : DistinctTids s)
    (hconv : ConversionKeepsDistinct s) (hne : T1 ≠ T2)
    (h1 : tidOf s T1 = some r1) (h2 : tidOf s T2 = some r2) :
    (get_thread_id syscall nr T1 s).1 ≠ (get_thread_id syscall nr T2 s).1 := by
  have a1 := hk T1 s r1 h1
  have a2 := hk T2 s r2 h2
  have hmod := hconv T1 T2 r1 r2 h1 h2 (hd T1 T2 r1 r2 hne h1 h2)
  unfold get_thread_id
  dsimp only
  rw [a1, a2]
  intro heq
  exact hmod ((toInt32_eq_iff r1 r2).mp heq)

theorem get_thread_id_distinct_witness :
    (1 : Thread) ≠ 3 ∧ tidOf sampleState 1 = some 4100 ∧
      tidOf sampleState 3 = some 4102 ∧
      (get_thread_id (sampleKernel 186) 186 1 sampleState).1
        ≠ (get_thread_id (sampleKernel 186) 186 3 sampleState).1 :=
  ⟨by decide, by decide, by decide,
    get_thread_id_distinct (sampleKernel 186) 186 sampleState 1 3 4100 4102
      (sampleKernel_answersTid 186) sampleState_distinctTids
      (conversionKeepsDistinct_of_tidsFitInt32 sampleState sampleState_tidsFitInt32)
      (by decide) (by decide) (by decide)⟩

/-! ## Failure, state and requests -/

/-- C5: for every outcome of the system call `get_thread_id` yields a plain
integer next to the state the system call left, after exactly one request;
and when the system call returns the failure value `-1`, that integer is
`-1`: nothing is retried and no other value is put in its place. -/
theorem get_thread_id_propagates_failure {σ : Type} (syscall : Syscall σ)
    (nr : Int) (t : Thread) (s : σ) (log : List Request) :
    (∃ v : Int, get_thread_id syscall nr t s = (v, (syscall nr [] t s).2) ∧
        get_thread_id (logged syscall) nr t (s, log)
          = (v, ((syscall nr [] t s).2, log ++ [⟨nr, []⟩]))) ∧
      ((syscall nr [] t s).1 = -1 →
        get_thread_id syscall nr t s = (-1, (syscall nr [] t s).2) ∧
        get_thread_id (logged syscall) nr t (s, log)
          = (-1, ((syscall nr [] t s).2, log ++ [⟨nr, []⟩]))) := by
  refine ⟨⟨toInt32 (syscall nr [] t s).1, rfl, rfl⟩, ?_⟩
  intro hfail
  unfold get_thread_id logged
  dsimp only
  rw [hfail]
  exact ⟨rfl, rfl⟩

theorem get_thread_id_propagates_failure_witness :
    (failingKernel 186 [] 1 sampleState).1 = -1 ∧
      get_thread_id failingKernel 186 1 sampleState
        = (-1, { memory := [38, 7], threads := sampleState.threads }) ∧
      (get_thread_id (logged failingKernel) 186 1 (sampleState, [])).2.2
        = [⟨186, []⟩] := by
  have h := (get_thread_id_propagates_failure failingKernel 186 1 sampleState []).2
    (by decide)
  refine ⟨by decide, ?_, ?_⟩
  · rw [h.1]; rfl
  · rw [h.2]; rfl

/-- C6, counterexample: thread 1 is live in `sampleState`, whose memory is
`[0, 7]`; against a kernel that lacks the facility the system call fails
with `-1` and stores its error number, and after the invocation the memory
is `[38, 7]`: the state is not the one the invocation started from. -/
theorem get_thread_id_failure_changes_memory :
    tidOf sampleState 1 = some 4100 ∧ sampleState.memory = [0, 7] ∧
      (failingKernel 186 [] 1 sampleState).1 = -1 ∧
      (get_thread_id failingKernel 186 1 sampleState).1 = -1 ∧
      (get_thread_id failingKernel 186 1 sampleState).2.memory = [38, 7] ∧
      (get_thread_id failingKernel 186 1 sampleState).2 ≠ sampleState :=
  ⟨by decide, by decide, by decide, by decide, by decide, by decide⟩

/-- C6, amended: an invocation has no effect of its own on the state. It
yields the conversion of the system call's answer next to exactly the state
the one `gettid` request left (the request log grows by that request and
nothing else), so the memory is unchanged when the request leaves the memory
unchanged, and the thread table is unchanged when the request leaves the
thread table unchanged. -/
theorem get_thread_id_no_own_side_effect (syscall : Syscall State) (nr : Int)
    (t : Thread) (s : State) (log : List Request) :
    get_thread_id syscall nr t s
        = (toInt32 (syscall nr [] t s).1, (syscall nr [] t s).2) ∧
      (get_thread_id (logged syscall) nr t (s, log)).2
        = ((syscall nr [] t s).2, log ++ [⟨nr, []⟩]) ∧
      ((syscall nr [] t s).2.memory = s.memory →
        (get_thread_id syscall nr t s).2.memory = s.memory) ∧
      ((syscall nr [] t s).2.threads = s.threads →
        (get_thread_id syscall nr t s).2.threads = s.threads) := by
  refine ⟨rfl, rfl, ?_, ?_⟩
  · intro h
    unfold get_thread_id
    exact h
  · intro h
    unfold get_thread_id
    exact h

theorem get_thread_id_no_own_side_effect_witness :
    (get_thread_id (sampleKernel 186) 186 2 sampleState).2.memory = [0, 7] ∧
      (get_thread_id (sampleKernel 186) 186 2 sampleState).2.threads
        = sampleState.threads ∧
      (get_thread_id failingKernel 186 2 sampleState).2.threads
        = sampleState.threads := by
  have h := get_thread_id_no_own_side_effect (sampleKernel 186) 186 2 sampleState []
  have hf := get_thread_id_no_own_side_effect failingKernel 186 2 sampleState []
  exact ⟨h.2.2.1 (by decide), h.2.2.2 (by decide), hf.2.2.2 (by decide)⟩

/-- C7: an invocation adds exactly one request to the log, the `gettid`
number with no argument, and returns the conversion of the answer to that
request; a second invocation (from any thread) issues the request again and
returns the conversion of the answer it gets then, in the state the first
invocation left. -/
theorem get_thread_id_fresh_lookup {σ : Type} (syscall : Syscall σ) (nr : Int)
    (t1 t2 : Thread) (s : σ) (log : List Request) :
    (get_thread_id (logged syscall) nr t1 (s, log)).2.2 = log ++ [⟨nr, []⟩] ∧
      (get_thread_id (logged syscall) nr t1 (s, log)).1
        = toInt32 (syscall nr [] t1 s).1 ∧
      (get_thread_id (logged syscall) nr t2
          (get_thread_id (logged syscall) nr t1 (s, log)).2).2.2
        = log ++ [⟨nr, []⟩, ⟨nr, []⟩] ∧
      (get_thread_id (logged syscall) nr t2
          (get_thread_id (logged syscall) nr t1 (s, log)).2).1
        = toInt32 (syscall nr [] t2 (syscall nr [] t1 s).2).1 := by
  unfold get_thread_id logged
  dsimp only
  refine ⟨rfl, rfl, ?_, rfl⟩
  simp

theorem get_thread_id_fresh_lookup_witness :
    (get_thread_id (logged (sampleKernel 186)) 186 1 (sampleState, [])).1 = 4100 ∧
      (get_thread_id (logged (sampleKernel 186)) 186 3
          (get_thread_id (logged (sampleKernel 186)) 186 1 (sampleState, [])).2).1
        = 4102 ∧
      (get_thread_id (logged (sampleKernel 186)) 186 3
          (get_thread_id (logged (sampleKernel 186)) 186 1 (sampleState, [])).2).2.2
        = [⟨186, []⟩, ⟨186, []⟩] := by
  have h := get_thread_id_fresh_lookup (sampleKernel 186) 186 1 3 sampleState []
  refine ⟨?_, ?_, ?_⟩
  · rw [h.2.1]; decide
  · rw [h.2.2.2]; decide
  · rw [h.2.2.1]; rfl

/-! ## Invocations from several threads, in any order -/

theorem runAll_state {σ : Type} (syscall : Syscall σ) (nr : Int) :
    ∀ (schedule : List Thread) (s : σ),
      (runAll syscall nr schedule s).2
        = schedule.foldl (fun s2 t => (syscall nr [] t s2).2) s := by
  intro schedule
  induction schedule with
  | nil => intro s; rfl
  | cons t ts ih =>
    intro s
    simp only [runAll, List.foldl_cons]
    rw [ih]
    rfl

theorem runAll_callers {σ : Type} (syscall : Syscall σ) (nr : Int) :
    ∀ (schedule : List Thread) (s : σ),
      (runAll syscall nr schedule s).1.map Prod.fst = schedule := by
  intro schedule
  induction schedule with
  | nil => intro s; rfl
  | cons t ts ih =>
    intro s
    simp only [runAll, List.map_cons]
    rw [ih]

theorem runAll_results (syscall : Syscall State) (nr : Int) (s0 : State)
    (hk : AnswersTid syscall nr) (hp : KeepsThreads syscall nr) :
    ∀ (schedule : List Thread) (s : State), s.threads = s0.threads →
      (∀ t ∈ schedule, (tidOf s0 t).isSome = true) →
      (runAll syscall nr schedule s).1
          = schedule.map (fun t => (t, toInt32 ((tidOf s0 t).getD 0))) ∧
        (runAll syscall nr schedule s).2.threads = s0.threads := by
  intro schedule
  induction schedule with
  | nil =>
    intro s hs _
    exact ⟨rfl, hs⟩
  | cons t ts ih =>
    intro s hs hlive
    have hsome := hlive t (List.mem_cons_self t ts)
    obtain ⟨r, hr⟩ := Option.isSome_iff_exists.mp hsome
    have hr2 : tidOf s t = some r := by
      rw [tidOf_of_threads_eq s0 s hs t]; exact hr
    have hans := hk t s r hr2
    have hnext : (get_thread_id syscall nr t s).2.threads = s0.threads := by
      unfold get_thread_id
      dsimp only
      rw [hp t s]; exact hs
    have hrest := ih (get_thread_id syscall nr t s).2 hnext
      (fun u hu => hlive u (List.mem_cons_of_mem t hu))
    simp only [runAll, List.map_cons]
    refine ⟨?_, hrest.2⟩
    rw [hrest.1]
    congr 1
    unfold get_thread_id
    dsimp only
    rw [hans, hr]
    rfl

theorem runAll_mem (syscall : Syscall State) (nr : Int) (s : State)
    (schedule : List Thread)
    (hk : AnswersTid syscall nr) (hp : KeepsThreads syscall nr)
    (hlive : ∀ t ∈ schedule, (tidOf s t).isSome = true) (t : Thread) (v : Int) :
    (t, v) ∈ (runAll syscall nr schedule s).1 ↔
      t ∈ schedule ∧ ∃ r, tidOf s t = some r ∧ v = toInt32 r := by
  rw [(runAll_results syscall nr s hk hp schedule s rfl hlive).1]
  simp only [List.mem_map, Prod.mk.injEq]
  constructor
  · rintro ⟨u, hu, rfl, rfl⟩
    obtain ⟨r, hr⟩ := Option.isSome_iff_exists.mp (hlive u hu)
    exact ⟨hu, r, hr, by rw [hr]; rfl⟩
  · rintro ⟨ht, r, hr, rfl⟩
    exact ⟨t, ht, rfl, by rw [hr]; rfl⟩

/-- C8: let any number of live threads invoke `get_thread_id`, in any order
and any number of times (a schedule), against a kernel that answers `gettid`
from the thread table and leaves the table alone. Every invocation returns,
to its own caller; a value is returned to a thread exactly when the thread
is in the schedule and the value is the conversion of that thread's own
identifier, which is the identifier itself when it fits signed 32 bits; the
thread table is unchanged and the state is the one the system calls alone
leave; and any reordering of the schedule returns the same values to the
same threads. -/
theorem get_thread_id_any_schedule (syscall : Syscall State) (nr : Int)
    (s : State) (schedule : List Thread)
    (hk : AnswersTid syscall nr) (hp : KeepsThreads syscall nr)
    (hlive : ∀ t ∈ schedule, (tidOf s t).isSome = true) :
    (runAll syscall nr schedule s).1.map Prod.fst = schedule ∧
      (∀ (t : Thread) (v : Int), (t, v) ∈ (runAll syscall nr schedule s).1 ↔
        t ∈ schedule ∧ ∃ r, tidOf s t = some r ∧ v = toInt32 r) ∧
      (∀ (t : Thread) (v r : Int), (t, v) ∈ (runAll syscall nr schedule s).1 →
        tidOf s t = some r → isInt32 r → v = r) ∧
      (runAll syscall nr schedule s).2.threads = s.threads ∧
      (runAll syscall nr schedule s).2
        = schedule.foldl (fun s2 t => (syscall nr [] t s2).2) s ∧
      (∀ schedule2 : List Thread, schedule2.Perm schedule →
        ∀ p : Thread × Int, p ∈ (runAll syscall nr schedule2 s).1 ↔
          p ∈ (runAll syscall nr schedule s).1) := by
  refine ⟨runAll_callers syscall nr schedule s,
    runAll_mem syscall nr s schedule hk hp hlive, ?_,
    (runAll_results syscall nr s hk hp schedule s rfl hlive).2,
    runAll_state syscall nr schedule s, ?_⟩
  · intro t v r hmem hr hfit
    obtain ⟨_, r2, hr2, hv⟩ := (runAll_mem syscall nr s schedule hk hp hlive t v).mp hmem
    rw [hr] at hr2
    cases hr2
    rw [hv]
    exact toInt32_of_isInt32 r hfit
  · intro schedule2 hperm p
    have hlive2 : ∀ t ∈ schedule2, (tidOf s t).isSome = true :=
      fun t ht => hlive t (hperm.mem_iff.mp ht)
    obtain ⟨t, v⟩ := p
    rw [runAll_mem syscall nr s schedule2 hk hp hlive2 t v,
      runAll_mem syscall nr s schedule hk hp hlive t v, hperm.mem_iff]

theorem get_thread_id_any_schedule_witness :
    (∀ t ∈ [3, 1, 2, 1], (tidOf sampleState t).isSome = true) ∧
      (runAll (sampleKernel 186) 186 [3, 1, 2, 1] sampleState).1
        = [(3, 4102), (1, 4100), (2, 4101), (1, 4100)] ∧
      (runAll (sampleKernel 186) 186 [1, 1, 2, 3] sampleState).1
        = [(1, 4100), (1, 4100), (2, 4101), (3, 4102)] ∧
      (runAll (sampleKernel 186) 186 [3, 1, 2, 1] sampleState).2.threads
        = sampleState.threads := by
  have h := get_thread_id_any_schedule (sampleKernel 186) 186 sampleState
    [3, 1, 2, 1] (sampleKernel_answersTid 186) (sampleKernel_keepsThreads 186)
    (by decide)
  exact ⟨by decide, by decide, by decide, h.2.2.2.1⟩

end Bait
